import Mathlib

/-!
Verification development for `src/crypt/file.py`: a supervised "encrypted
scratch session" that decrypts a GPG file into a RAM-backed workspace, runs a
user command on the plaintext, re-encrypts on every modification, and tears the
workspace down on exit.

The development has three layers:

* pure string-level models of `decrypt_to_tmp`'s recipient scan and filename
  derivation, and of `ChangeHandler.on_modified` and the exit-code expression of
  `cleanup_and_exit`;
* a deterministic trace model `cleanupRun` of the straight-line body of
  `cleanup_and_exit`;
* a labelled transition system `Step` over `SessState` modelling the whole
  session (main control path, signal delivery, the watcher's background thread,
  and the shared `_ENCRYPT_LOCK`), with safety invariants proved by induction
  over reachability.
-/

namespace CryptFile

/-- Boolean prefix test on character lists (structural, so that the kernel can
evaluate it on concrete strings). -/
def isCharListPrefixOf : List Char → List Char → Bool
  | [], _ => true
  | _ :: _, [] => false
  | a :: as, b :: bs => a == b && isCharListPrefixOf as bs

/-- Python `s.startswith(pre)` as used on status lines at `file.py` line 60. -/
def pyStartsWith (s pre : String) : Bool := isCharListPrefixOf pre.data s.data

/-- Helper for `pySplit`: walk the characters, accumulating the current token
in reverse; whitespace ends a token, and empty tokens are dropped. -/
def pySplitChars : List Char → List Char → List String
  | cur, [] => if cur.isEmpty then [] else [String.mk cur.reverse]
  | cur, c :: rest =>
    if c.isWhitespace then
      if cur.isEmpty then pySplitChars [] rest
      else String.mk cur.reverse :: pySplitChars [] rest
    else pySplitChars (c :: cur) rest

/-- Python `str.split()` with no argument: split on whitespace runs, dropping
empty pieces (as used on status lines in `decrypt_to_tmp`, line 61). -/
def pySplit (s : String) : List String := pySplitChars [] s.data

/-- The characters of the cutset string `".gpg"` passed to `str.rstrip` at
`file.py` line 44. -/
def rstripCutset : List Char := String.data ".gpg"

/-- Python `s.rstrip(cutset)`: removes every trailing character drawn from the
cutset (a character set, not a suffix). -/
def pyRstrip (s : String) (cutset : List Char) : String :=
  String.mk ((s.data.reverse.dropWhile (fun c => cutset.contains c)).reverse)

/-- Basename of the plaintext working file, computed at `file.py` line 44 as
`os.path.basename(enc_path).rstrip(".gpg")`. -/
def tmpBaseName (encBase : String) : String := pyRstrip encBase rstripCutset

/-- Outcome of the `for line in stderr.splitlines()` scan of
`decrypt_to_tmp` (lines 58-65): the loop either breaks with a key id, attempts
an out-of-bounds read of `parts[2]`, or falls through without breaking. -/
inductive ScanOut where
  | found (keyid : String)
  | oob
  | noBreak
deriving DecidableEq

/-- The recipient scan of `decrypt_to_tmp`, lines 58-65: on the first line
starting with `"[GNUPG:] ENC_TO"` whose whitespace split has at least two
fields, read field index 2 (out of bounds when exactly two fields exist). -/
def scanEncTo : List String → ScanOut
  | [] => ScanOut.noBreak
  | line :: rest =>
    if pyStartsWith line "[GNUPG:] ENC_TO" then
      let parts := pySplit line
      if parts.length ≥ 2 then
        match parts[2]? with
        | some k => ScanOut.found k
        | none => ScanOut.oob
      else scanEncTo rest
    else scanEncTo rest

/-- Failures `decrypt_to_tmp` can raise: the `RuntimeError` for nonzero GPG
status (line 55), the `RuntimeError` for a missing recipient (line 67), and a
Python `IndexError` escaping from the `parts[2]` read (line 64). -/
inductive DecryptFailure where
  | decryptionFailed (rc : Int) (diag : String)
  | recipientUnknown
  | indexError
deriving DecidableEq

/-- Join stderr lines back into the diagnostic text carried by the
decryption-failed error. -/
def joinLines : List String → String
  | [] => ""
  | [l] => l
  | l :: ls => l ++ "\n" ++ joinLines ls

/-- Observable result of one GPG subprocess invocation: its exit status and its
captured stderr (the `--status-fd 2` stream), as a list of lines. -/
structure BackendRun where
  returncode : Int
  stderrLines : List String
deriving DecidableEq

/-- Model of `decrypt_to_tmp` (lines 38-69), as a function of the encrypted
file's basename and the backend invocation's observable result.  Returns the
plaintext basename together with the extracted recipient key id, or the raised
failure.  The `k = ""` test mirrors Python's truthiness check `if not keyid`
(line 66). -/
def decrypt_to_tmp (encBase : String) (run : BackendRun) :
    Except DecryptFailure (String × String) :=
  if run.returncode ≠ 0 then
    Except.error (DecryptFailure.decryptionFailed run.returncode (joinLines run.stderrLines))
  else
    match scanEncTo run.stderrLines with
    | ScanOut.found k =>
        if k = "" then Except.error DecryptFailure.recipientUnknown
        else Except.ok (tmpBaseName encBase, k)
    | ScanOut.oob => Except.error DecryptFailure.indexError
    | ScanOut.noBreak => Except.error DecryptFailure.recipientUnknown

/-- Observable behaviour of one `ChangeHandler.on_modified` call (lines
98-104). -/
structure HandlerOut where
  attempted : Bool
  loggedError : Bool
  raised : Bool
deriving DecidableEq

/-- Model of `ChangeHandler.on_modified` (lines 98-104): `plaintext` is
`self.plaintext`, `srcPath` is `event.src_path`, and `encResult` is the result
of the triggered `encrypt_back` call (`none` for success, `some msg` for a
raised `RuntimeError`; `encrypt_back` wraps every failure in `RuntimeError`, so
the `except RuntimeError` clause catches every failure). -/
def on_modified (plaintext srcPath : String) (encResult : Option String) : HandlerOut :=
  if srcPath = plaintext then
    match encResult with
    | none => { attempted := true, loggedError := false, raised := false }
    | some _ => { attempted := true, loggedError := true, raised := false }
  else { attempted := false, loggedError := false, raised := false }

/-- Status of the child process as `cleanup_and_exit` sees it: `none` when
`PROCESS` is `None` (never launched), `some running` when launched with
`returncode` still `None`, `some (exited c)` when a wait or poll recorded exit
code `c`. -/
inductive ChildSt where
  | running
  | exited (c : Int)
deriving DecidableEq

/-- The process exit status chosen at `file.py` line 132:
`0 if (PROCESS and PROCESS.returncode in (0, None)) else 1`. -/
def childExitCode : Option ChildSt → Nat
  | none => 1
  | some ChildSt.running => 0
  | some (ChildSt.exited c) => if c = 0 then 0 else 1

/-- Observable events of a session, recorded in execution traces. -/
inductive Ev where
  | killed
  | sigHandled
  | launchFail
  | childExit
  | termReq
  | finalEncStart
  | finalEncOk
  | finalEncFail
  | printPath
  | ackEv
  | stopW
  | joinW
  | rmEv
  | exitEv
  | autoStart
  | autoLock
  | autoOk
  | autoFail
deriving DecidableEq

/-- Count of one event in a trace. -/
def countEv : List Ev → Ev → Nat
  | [], _ => 0
  | x :: t, e => (if x = e then 1 else 0) + countEv t e

/-- One step of the "safe so far" automaton used to state that workspace
removal only ever happens after a successful final encrypt or an explicit
acknowledgement: the flag becomes (and stays) true once either witness event
has been scanned. -/
def evSeen (seen : Bool) (e : Ev) : Bool :=
  seen || (match e with
           | Ev.finalEncOk => true
           | Ev.ackEv => true
           | _ => false)

/-- Fold of `evSeen` over a trace. -/
def seenFold (seen : Bool) : List Ev → Bool
  | [] => seen
  | e :: t => seenFold (evSeen seen e) t

/-- Scan a trace left to right carrying `evSeen`'s flag; every `rmEv` must find
the flag already set.  `rmSafeFrom false tr = true` states: every workspace
removal in `tr` is preceded by a successful final encrypt or an explicit
acknowledgement. -/
def rmSafeFrom (seen : Bool) : List Ev → Bool
  | [] => true
  | e :: t => (if e = Ev.rmEv then seen else true) && rmSafeFrom (evSeen seen e) t

/-- How the Terminating sequence finds its environment: used by the
deterministic model `cleanupRun` of `cleanup_and_exit`'s straight-line body. -/
structure CleanupEnv where
  child : Option ChildSt
  encFails : Bool
  watcher : Bool
  workspace : Bool
deriving DecidableEq

/-- Deterministic trace of one execution of `cleanup_and_exit` (lines 106-132):
terminate a live child, attempt the final encrypt, on failure print the
plaintext path and block on `input()`, stop and join the watcher, remove the
workspace directory if it still exists, and call `sys.exit` with the code from
`childExitCode`. -/
def cleanupRun (e : CleanupEnv) : List Ev :=
  (if e.child = some ChildSt.running then [Ev.termReq] else [])
    ++ [Ev.finalEncStart]
    ++ (if e.encFails then [Ev.finalEncFail, Ev.printPath, Ev.ackEv] else [Ev.finalEncOk])
    ++ (if e.watcher then [Ev.stopW, Ev.joinW] else [])
    ++ (if e.workspace then [Ev.rmEv] else [])
    ++ [Ev.exitEv]

/-- Holder of the `_ENCRYPT_LOCK`: the main thread (running `cleanup_and_exit`)
or the watchdog observer thread (running `ChangeHandler.on_modified`). -/
inductive Owner where
  | mainT
  | watchT
deriving DecidableEq

/-- Program counter of the main thread.  `mInstall` is the point right after
`decrypt_to_tmp` returned (line 148) and before the signal handlers are
installed (lines 150-152); the `c*` values are the successive statements of
`cleanup_and_exit`. -/
inductive MPc where
  | mInstall
  | mStartW
  | mRunChild
  | mWaitChild
  | cTerm
  | cEncCall
  | cEncRun
  | cAck
  | cStopW
  | cJoinW
  | cRm
  | cExit
  | halted
deriving DecidableEq

/-- Program counter of the watcher's background thread: idle, blocked on the
encryption lock inside `encrypt_back`, or running the encryption backend with
the lock held. -/
inductive WPc where
  | wIdle
  | wWait
  | wRun
deriving DecidableEq

/-- How the process ended: `normal c` for `sys.exit(c)` from `cleanup_and_exit`,
`killed` for the platform's default disposition of an interrupt or terminate
signal delivered before the handlers were installed. -/
inductive ExitKind where
  | normal (code : Nat)
  | killed
deriving DecidableEq

/-- Session state for the transition system: thread program counters, handler
installation, watcher subscription, the encryption lock, existence of the
plaintext file and the workspace directory, the child process, the recorded
result of the most recent cleanup encrypt, whether the operator acknowledged a
cleanup-encrypt failure, how the process ended (if it did), and the event
trace. -/
structure SessState where
  mpc : MPc
  wpc : WPc
  handlers : Bool
  watcherOn : Bool
  lock : Option Owner
  plaintext : Bool
  workspace : Bool
  child : Option ChildSt
  lastOk : Option Bool
  ackGiven : Bool
  exited : Option ExitKind
  trace : List Ev
deriving DecidableEq

/-- State right after `decrypt_to_tmp` returned: plaintext and workspace exist,
nothing else has happened yet. -/
def initState : SessState :=
  { mpc := MPc.mInstall
    wpc := WPc.wIdle
    handlers := false
    watcherOn := false
    lock := none
    plaintext := true
    workspace := true
    child := none
    lastOk := none
    ackGiven := false
    exited := none
    trace := [] }

/-- Step labels, identifying which statement of which thread (or which external
event) produced a transition. -/
inductive Lab where
  | instH
  | startW
  | runOk
  | runFail
  | chExit
  | sigDef
  | sigH
  | cTermL
  | cAcqL
  | cOkL
  | cFailL
  | cAckL
  | cStopL
  | cJoinL
  | cRmL
  | cExitL
  | wFireL
  | wAcqL
  | wOkL
  | wFailL
deriving DecidableEq

/-- Labelled transition relation of the session, modelling `main` (lines
134-169), `cleanup_and_exit` (lines 106-132), signal delivery, and the watcher
thread's `on_modified` → `encrypt_back` path (lines 71-89 and 98-104).

Modelling notes, each tied to the source:
* Signal handlers are installed at lines 150-152, after `decrypt_to_tmp`; a
  signal delivered before that (`sigDef`) gets the platform default and kills
  the process without any cleanup.  A signal delivered after (`sigH`) runs
  `cleanup_and_exit` in the main thread, interrupting whatever it was doing;
  the handler never returns normally (it ends in `sys.exit`, or blocks), so the
  interrupted code never resumes and the model simply resets `mpc` to the head
  of the cleanup sequence.
* `encrypt_back` wraps its whole body in `with _ENCRYPT_LOCK`, so both the
  cleanup path (`cAcqL` then `cOkL`/`cFailL`) and the watcher path (`wAcqL`
  then `wOkL`/`wFailL`) acquire the lock before invoking the backend and
  release it on both the success and the exception path.
* `Observer.stop()` (line 128) stops the delivery of new events
  (`watcherOn := false`); `Observer.join()` waits until the watcher thread is
  idle again (guard `wpc = wIdle`).
* `shutil.rmtree` (line 131) runs only when the directory still exists, and
  removes the plaintext with the workspace.
* A successful encrypt needs the plaintext file to exist; an encrypt can fail
  for backend reasons at any time, so the failing transitions have no
  `plaintext` guard. -/
inductive Step : SessState → Lab → SessState → Prop where
  | instH (s : SessState) (hx : s.exited = none) (h : s.mpc = MPc.mInstall) :
      Step s Lab.instH { s with mpc := MPc.mStartW, handlers := true }
  | startW (s : SessState) (hx : s.exited = none) (h : s.mpc = MPc.mStartW) :
      Step s Lab.startW { s with mpc := MPc.mRunChild, watcherOn := true }
  | runOk (s : SessState) (hx : s.exited = none) (h : s.mpc = MPc.mRunChild) :
      Step s Lab.runOk { s with mpc := MPc.mWaitChild, child := some ChildSt.running }
  | runFail (s : SessState) (hx : s.exited = none) (h : s.mpc = MPc.mRunChild) :
      Step s Lab.runFail { s with mpc := MPc.cTerm, trace := s.trace ++ [Ev.launchFail] }
  | chExit (s : SessState) (c : Int) (hx : s.exited = none) (h : s.mpc = MPc.mWaitChild)
      (hc : s.child = some ChildSt.running) :
      Step s Lab.chExit
        { s with mpc := MPc.cTerm, child := some (ChildSt.exited c),
                 trace := s.trace ++ [Ev.childExit] }
  | sigDef (s : SessState) (hx : s.exited = none) (h : s.handlers = false) :
      Step s Lab.sigDef
        { s with exited := some ExitKind.killed, trace := s.trace ++ [Ev.killed] }
  | sigH (s : SessState) (hx : s.exited = none) (h : s.handlers = true) :
      Step s Lab.sigH { s with mpc := MPc.cTerm, trace := s.trace ++ [Ev.sigHandled] }
  | cTermStep (s : SessState) (hx : s.exited = none) (h : s.mpc = MPc.cTerm) :
      Step s Lab.cTermL
        { s with mpc := MPc.cEncCall,
                 trace := s.trace
                   ++ (if s.child = some ChildSt.running then [Ev.termReq] else [])
                   ++ [Ev.finalEncStart] }
  | cAcq (s : SessState) (hx : s.exited = none) (h : s.mpc = MPc.cEncCall)
      (hl : s.lock = none) :
      Step s Lab.cAcqL { s with mpc := MPc.cEncRun, lock := some Owner.mainT }
  | cOk (s : SessState) (hx : s.exited = none) (h : s.mpc = MPc.cEncRun)
      (hp : s.plaintext = true) :
      Step s Lab.cOkL
        { s with mpc := MPc.cStopW, lock := none, lastOk := some true,
                 trace := s.trace ++ [Ev.finalEncOk] }
  | cFail (s : SessState) (hx : s.exited = none) (h : s.mpc = MPc.cEncRun) :
      Step s Lab.cFailL
        { s with mpc := MPc.cAck, lock := none, lastOk := some false,
                 trace := s.trace ++ [Ev.finalEncFail, Ev.printPath] }
  | cAckStep (s : SessState) (hx : s.exited = none) (h : s.mpc = MPc.cAck) :
      Step s Lab.cAckL
        { s with mpc := MPc.cStopW, ackGiven := true, trace := s.trace ++ [Ev.ackEv] }
  | cStop (s : SessState) (hx : s.exited = none) (h : s.mpc = MPc.cStopW) :
      Step s Lab.cStopL
        { s with mpc := MPc.cJoinW, watcherOn := false, trace := s.trace ++ [Ev.stopW] }
  | cJoin (s : SessState) (hx : s.exited = none) (h : s.mpc = MPc.cJoinW)
      (hw : s.wpc = WPc.wIdle) :
      Step s Lab.cJoinL { s with mpc := MPc.cRm, trace := s.trace ++ [Ev.joinW] }
  | cRmYes (s : SessState) (hx : s.exited = none) (h : s.mpc = MPc.cRm)
      (hws : s.workspace = true) :
      Step s Lab.cRmL
        { s with mpc := MPc.cExit, workspace := false, plaintext := false,
                 trace := s.trace ++ [Ev.rmEv] }
  | cRmNo (s : SessState) (hx : s.exited = none) (h : s.mpc = MPc.cRm)
      (hws : s.workspace = false) :
      Step s Lab.cRmL { s with mpc := MPc.cExit }
  | cExitStep (s : SessState) (hx : s.exited = none) (h : s.mpc = MPc.cExit) :
      Step s Lab.cExitL
        { s with mpc := MPc.halted,
                 exited := some (ExitKind.normal (childExitCode s.child)),
                 trace := s.trace ++ [Ev.exitEv] }
  | wFire (s : SessState) (hx : s.exited = none) (h : s.watcherOn = true)
      (hw : s.wpc = WPc.wIdle) :
      Step s Lab.wFireL { s with wpc := WPc.wWait, trace := s.trace ++ [Ev.autoStart] }
  | wAcq (s : SessState) (hx : s.exited = none) (h : s.wpc = WPc.wWait)
      (hl : s.lock = none) :
      Step s Lab.wAcqL
        { s with wpc := WPc.wRun, lock := some Owner.watchT,
                 trace := s.trace ++ [Ev.autoLock] }
  | wOk (s : SessState) (hx : s.exited = none) (h : s.wpc = WPc.wRun)
      (hp : s.plaintext = true) :
      Step s Lab.wOkL
        { s with wpc := WPc.wIdle, lock := none, trace := s.trace ++ [Ev.autoOk] }
  | wFail (s : SessState) (hx : s.exited = none) (h : s.wpc = WPc.wRun) :
      Step s Lab.wFailL
        { s with wpc := WPc.wIdle, lock := none, trace := s.trace ++ [Ev.autoFail] }

/-- States reachable from the post-decrypt initial state. -/
inductive Reachable : SessState → Prop where
  | init : Reachable initState
  | step {s : SessState} {l : Lab} {s' : SessState} :
      Reachable s → Step s l s' → Reachable s'

/-- Labels belonging to the watcher's background thread. -/
def watcherLab (l : Lab) : Prop :=
  l = Lab.wFireL ∨ l = Lab.wAcqL ∨ l = Lab.wOkL ∨ l = Lab.wFailL

/-- Labels on which an `encrypt_back` invocation completes (normally or by an
exception). -/
def encDoneLab (l : Lab) : Prop :=
  l = Lab.cOkL ∨ l = Lab.cFailL ∨ l = Lab.wOkL ∨ l = Lab.wFailL

/-- Whether the process ended through `sys.exit` (rather than a default signal
disposition, or not at all). -/
def isNormalExit : Option ExitKind → Bool
  | some (ExitKind.normal _) => true
  | _ => false

/-- Concrete reachable state witnessing a signal delivered in the window
between `decrypt_to_tmp` returning (line 148) and the installation of the
signal handlers (lines 150-152): the process is killed and the plaintext file
is left behind in the workspace. -/
def preInstallKilledState : SessState :=
  { initState with exited := some ExitKind.killed, trace := [Ev.killed] }

/-- The part of a `cleanup_and_exit` trace before the blocking
acknowledgement prompt, when the final encrypt fails. -/
def ackPrefix (e : CleanupEnv) : List Ev :=
  (if e.child = some ChildSt.running then [Ev.termReq] else [])
    ++ [Ev.finalEncStart, Ev.finalEncFail, Ev.printPath]

/-- The part of a `cleanup_and_exit` trace after the acknowledgement is given,
when the final encrypt fails. -/
def ackSuffix (e : CleanupEnv) : List Ev :=
  (if e.watcher then [Ev.stopW, Ev.joinW] else []) ++ [Ev.rmEv, Ev.exitEv]

/-- The part of a `cleanup_and_exit` trace before the final encrypt starts. -/
def preEncPart (e : CleanupEnv) : List Ev :=
  if e.child = some ChildSt.running then [Ev.termReq] else []

/-- The outcome events of the final encrypt in a `cleanup_and_exit` trace. -/
def encOutPart (e : CleanupEnv) : List Ev :=
  if e.encFails then [Ev.finalEncFail, Ev.printPath, Ev.ackEv] else [Ev.finalEncOk]

/-- Everything a `cleanup_and_exit` trace contains before its final
`sys.exit` event. -/
def cleanupFront (e : CleanupEnv) : List Ev :=
  (if e.child = some ChildSt.running then [Ev.termReq] else [])
    ++ [Ev.finalEncStart]
    ++ (if e.encFails then [Ev.finalEncFail, Ev.printPath, Ev.ackEv] else [Ev.finalEncOk])
    ++ (if e.watcher then [Ev.stopW, Ev.joinW] else [])
    ++ (if e.workspace then [Ev.rmEv] else [])

/-- A session state poised at the `sys.exit` statement of `cleanup_and_exit`. -/
def atExitState : SessState :=
  { initState with mpc := MPc.cExit, handlers := true, workspace := false,
                   plaintext := false, lastOk := some true,
                   trace := [Ev.finalEncStart, Ev.finalEncOk] }

/-- A session state with the watcher subscribed and everything else as right
after decryption. -/
def watchReadyState : SessState :=
  { initState with watcherOn := true }

/-- Concrete reachable state in which the session launched the child, the
child exited, cleanup began and called the final `encrypt_back`, and then a
filesystem event fired `on_modified`, initiating a fresh auto-save encrypt
after the final encrypt had already started: the watcher is only stopped later
in the cleanup sequence. -/
def lateAutoSaveState : SessState :=
  { mpc := MPc.cEncCall
    wpc := WPc.wWait
    handlers := true
    watcherOn := true
    lock := none
    plaintext := true
    workspace := true
    child := some (ChildSt.exited 0)
    lastOk := none
    ackGiven := false
    exited := none
    trace := [Ev.childExit, Ev.finalEncStart, Ev.autoStart] }

/-- Concrete reachable state in which the main control path completed the final
cleanup encrypt and then a termination signal re-entered `cleanup_and_exit`,
whose body ran the final encrypt a second time: both the main path and the
signal path performed cleanup. -/
def doubleCleanupState : SessState :=
  { mpc := MPc.cEncCall
    wpc := WPc.wIdle
    handlers := true
    watcherOn := true
    lock := none
    plaintext := true
    workspace := true
    child := some (ChildSt.exited 0)
    lastOk := some true
    ackGiven := false
    exited := none
    trace := [Ev.childExit, Ev.finalEncStart, Ev.finalEncOk, Ev.sigHandled,
              Ev.finalEncStart] }

/-- Concrete reachable final state of a session whose child failed to launch
(`PROCESS` stayed `None`) and whose cleanup encrypt succeeded: the process
exits with status 1. -/
def launchFailDoneState : SessState :=
  { mpc := MPc.halted
    wpc := WPc.wIdle
    handlers := true
    watcherOn := false
    lock := none
    plaintext := false
    workspace := false
    child := none
    lastOk := some true
    ackGiven := false
    exited := some (ExitKind.normal 1)
    trace := [Ev.launchFail, Ev.finalEncStart, Ev.finalEncOk, Ev.stopW, Ev.joinW,
              Ev.rmEv, Ev.exitEv] }

/-- Helper lemmas about traces. -/
theorem countEv_append (t u : List Ev) (e : Ev) :
    countEv (t ++ u) e = countEv t e + countEv u e := by
  induction t with
  | nil => simp [countEv]
  | cons x t ih => simp [countEv, ih]; omega

theorem evSeen_true (e : Ev) : evSeen true e = true := by
  simp [evSeen]

theorem seenFold_true (t : List Ev) : seenFold true t = true := by
  induction t with
  | nil => rfl
  | cons x t ih => simpa [seenFold, evSeen_true] using ih

theorem seenFold_append (b : Bool) (t u : List Ev) :
    seenFold b (t ++ u) = seenFold (seenFold b t) u := by
  induction t generalizing b with
  | nil => simp [seenFold]
  | cons x t ih => simp [seenFold, ih]

theorem rmSafeFrom_append (b : Bool) (t u : List Ev) :
    rmSafeFrom b (t ++ u) = (rmSafeFrom b t && rmSafeFrom (seenFold b t) u) := by
  induction t generalizing b with
  | nil => simp [rmSafeFrom, seenFold]
  | cons x t ih => simp [rmSafeFrom, seenFold, ih, Bool.and_assoc]

/-- Lock-discipline invariant: a thread whose program counter is inside the
backend invocation of `encrypt_back` holds the `_ENCRYPT_LOCK`. -/
theorem inv_lock {s : SessState} (h : Reachable s) :
    (s.mpc = MPc.cEncRun → s.lock = some Owner.mainT) ∧
    (s.wpc = WPc.wRun → s.lock = some Owner.watchT) := by
  induction h with
  | init => simp [initState]
  | step hr hs ih =>
    cases hs <;> simp_all
    all_goals
      (intro hw
       obtain ⟨h1, h2⟩ := ih
       first
       | simp [h2 hw] at h1
       | simp [h1 hw] at h2)

/-- The plaintext file and the workspace directory exist together: the file is
created inside the directory at decrypt time and removed with it by
`shutil.rmtree`. -/
theorem inv_plaintext_workspace {s : SessState} (h : Reachable s) :
    s.plaintext = s.workspace := by
  induction h with
  | init => rfl
  | step hr hs ih => cases hs <;> simp_all

/-- Removal-safety invariant: right before and at the watcher-stop, join and
rmtree statements of `cleanup_and_exit`, either the most recent cleanup encrypt
succeeded or the operator has acknowledged its failure; the trace flags
witnessing this are recorded; and every workspace removal so far was preceded
by one of the two witnesses. -/
theorem inv_rm_safe {s : SessState} (h : Reachable s) :
    ((s.mpc = MPc.cStopW ∨ s.mpc = MPc.cJoinW ∨ s.mpc = MPc.cRm) →
        s.lastOk = some true ∨ s.ackGiven = true) ∧
    (s.lastOk = some true → seenFold false s.trace = true) ∧
    (s.ackGiven = true → seenFold false s.trace = true) ∧
    rmSafeFrom false s.trace = true := by
  induction h with
  | init => simp [initState, seenFold, rmSafeFrom]
  | step hr hs ih =>
    cases hs <;>
      simp_all [seenFold_append, rmSafeFrom_append, seenFold, rmSafeFrom, evSeen,
        seenFold_true]
    case cTermStep => split <;> simp [rmSafeFrom, evSeen]
    case cRmYes =>
      obtain ⟨hd, hok, hack, _⟩ := ih
      rcases hd with hcase | hcase
      · exact hok hcase
      · exact hack hcase

/-- The workspace directory is removed at most once: `shutil.rmtree` runs only
when the directory still exists, and removes it. -/
theorem inv_rm_count {s : SessState} (h : Reachable s) :
    (s.workspace = true → countEv s.trace Ev.rmEv = 0) ∧
    countEv s.trace Ev.rmEv ≤ 1 := by
  induction h with
  | init => simp [initState, countEv]
  | step hr hs ih =>
    cases hs <;> simp_all [countEv_append, countEv]
    case cTermStep => split <;> simp [countEv] <;> omega

/-- The process performs `sys.exit` at most once: every transition is guarded
on the process not having exited yet. -/
theorem inv_exit_count {s : SessState} (h : Reachable s) :
    (s.exited = none → countEv s.trace Ev.exitEv = 0) ∧
    countEv s.trace Ev.exitEv ≤ 1 := by
  induction h with
  | init => simp [initState, countEv]
  | step hr hs ih =>
    cases hs <;> simp_all [countEv_append, countEv]
    case cTermStep => split <;> simp [countEv]

/-- By the time `sys.exit` is reached the workspace directory is gone, and a
normal process exit implies the workspace was destroyed. -/
theorem inv_workspace_exit {s : SessState} (h : Reachable s) :
    (s.mpc = MPc.cExit → s.workspace = false) ∧
    (isNormalExit s.exited = true → s.workspace = false) := by
  induction h with
  | init => simp [initState, isNormalExit]
  | step hr hs ih => cases hs <;> simp_all [isNormalExit]

/-- A default-disposition kill can only happen while the signal handlers are
not yet installed. -/
theorem inv_killed_pre_install {s : SessState} (h : Reachable s) :
    s.exited = some ExitKind.killed → s.handlers = false := by
  induction h with
  | init => simp [initState]
  | step hr hs ih => cases hs <;> simp_all

/-- C1 counterexample: a terminate/interrupt signal delivered in the window
after `decrypt_to_tmp` returns (line 148) and before the handlers are
installed (lines 150-152) gets the platform's default disposition: the process
ends with the plaintext file still present in the volatile workspace, so the
plaintext does survive past the end of that session, with no final encrypt and
no acknowledgement. -/
theorem c1_counterexample :
    Reachable preInstallKilledState ∧
    preInstallKilledState.exited ≠ none ∧
    preInstallKilledState.plaintext = true ∧
    preInstallKilledState.lastOk = none ∧
    preInstallKilledState.ackGiven = false := by
  refine ⟨Reachable.step Reachable.init (Step.sigDef initState rfl rfl), ?_, rfl, rfl, rfl⟩
  simp [preInstallKilledState]

/-- C1 (amended): in every reachable session state, every workspace removal so
far was preceded by a successful final encrypt or an explicit human
acknowledgement; whenever the process has exited through `sys.exit` (which
covers normal child exit, child launch failure, and any signal delivered after
the handlers were installed) the plaintext file is gone; and a
default-disposition kill — the one way the plaintext survives — is possible
only before the handlers are installed. -/
theorem c1_plaintext_lifetime {s : SessState} (h : Reachable s) :
    rmSafeFrom false s.trace = true ∧
    (isNormalExit s.exited = true → s.plaintext = false) ∧
    (s.exited = some ExitKind.killed → s.handlers = false) := by
  refine ⟨(inv_rm_safe h).2.2.2, ?_, inv_killed_pre_install h⟩
  intro hn
  rw [inv_plaintext_workspace h]
  exact (inv_workspace_exit h).2 hn

/-- C1 witness: the amended statement evaluated at the initial state. -/
theorem c1_plaintext_lifetime_witness :
    rmSafeFrom false initState.trace = true ∧
    (isNormalExit initState.exited = true → initState.plaintext = false) ∧
    (initState.exited = some ExitKind.killed → initState.handlers = false) :=
  c1_plaintext_lifetime Reachable.init

/-- C2: in every reachable state, a thread inside the backend invocation of
`encrypt_back` holds the `_ENCRYPT_LOCK`; the cleanup path and the watcher
path are never both inside the backend invocation; and on every transition
that completes an `encrypt_back` invocation — successfully or by raising —
the lock is released. -/
theorem c2_encrypt_mutual_exclusion :
    (∀ s : SessState, Reachable s →
        ¬(s.mpc = MPc.cEncRun ∧ s.wpc = WPc.wRun) ∧
        (s.mpc = MPc.cEncRun → s.lock = some Owner.mainT) ∧
        (s.wpc = WPc.wRun → s.lock = some Owner.watchT)) ∧
    (∀ (s : SessState) (l : Lab) (s' : SessState),
        Step s l s' → encDoneLab l → s'.lock = none) := by
  constructor
  · intro s h
    obtain ⟨hm, hw⟩ := inv_lock h
    refine ⟨?_, hm, hw⟩
    rintro ⟨h1, h2⟩
    have hc := (hm h1).symm.trans (hw h2)
    simp at hc
  · intro s l s' hs hl
    cases hs <;> simp_all [encDoneLab]

/-- C2 witness: mutual exclusion evaluated at the initial state, and the
release clause evaluated at a concrete lock-releasing step. -/
theorem c2_encrypt_mutual_exclusion_witness :
    ¬(initState.mpc = MPc.cEncRun ∧ initState.wpc = WPc.wRun) ∧
    ({ initState with mpc := MPc.cStopW
                      lock := none
                      lastOk := some true
                      trace := initState.trace ++ [Ev.finalEncOk] } : SessState).lock = none := by
  constructor
  · exact (c2_encrypt_mutual_exclusion.1 initState Reachable.init).1
  · exact c2_encrypt_mutual_exclusion.2
      { initState with mpc := MPc.cEncRun } Lab.cOkL _
      (Step.cOk { initState with mpc := MPc.cEncRun } rfl rfl rfl)
      (Or.inl rfl)

/-- C3: when the final cleanup encrypt fails (and the workspace still exists at
cleanup entry, as it does for the session's cleanup), the `cleanup_and_exit`
trace reaches the blocking acknowledgement prompt with the failure and the
plaintext path already printed, no workspace removal and no process exit
before the prompt, and workspace removal and exit only after the
acknowledgement. -/
theorem c3_cleanup_failure_blocks (e : CleanupEnv)
    (hf : e.encFails = true) (hws : e.workspace = true) :
    cleanupRun e = ackPrefix e ++ Ev.ackEv :: ackSuffix e ∧
    Ev.finalEncFail ∈ ackPrefix e ∧
    Ev.printPath ∈ ackPrefix e ∧
    Ev.rmEv ∉ ackPrefix e ∧
    Ev.exitEv ∉ ackPrefix e ∧
    Ev.rmEv ∈ ackSuffix e ∧
    Ev.exitEv ∈ ackSuffix e := by
  refine ⟨?_, ?_, ?_, ?_, ?_, ?_, ?_⟩
  · simp [cleanupRun, ackPrefix, ackSuffix, hf, hws]
  · simp [ackPrefix]
  · simp [ackPrefix]
  · by_cases hc : e.child = some ChildSt.running <;> simp [ackPrefix, hc]
  · by_cases hc : e.child = some ChildSt.running <;> simp [ackPrefix, hc]
  · simp [ackSuffix]
  · simp [ackSuffix]

/-- C3 witness: the statement evaluated at a concrete environment with a
failing final encrypt. -/
theorem c3_cleanup_failure_blocks_witness :
    cleanupRun ⟨some ChildSt.running, true, true, true⟩ =
      ackPrefix ⟨some ChildSt.running, true, true, true⟩ ++
        Ev.ackEv :: ackSuffix ⟨some ChildSt.running, true, true, true⟩ ∧
    Ev.finalEncFail ∈ ackPrefix ⟨some ChildSt.running, true, true, true⟩ ∧
    Ev.printPath ∈ ackPrefix ⟨some ChildSt.running, true, true, true⟩ ∧
    Ev.rmEv ∉ ackPrefix ⟨some ChildSt.running, true, true, true⟩ ∧
    Ev.exitEv ∉ ackPrefix ⟨some ChildSt.running, true, true, true⟩ ∧
    Ev.rmEv ∈ ackSuffix ⟨some ChildSt.running, true, true, true⟩ ∧
    Ev.exitEv ∈ ackSuffix ⟨some ChildSt.running, true, true, true⟩ :=
  c3_cleanup_failure_blocks ⟨some ChildSt.running, true, true, true⟩ rfl rfl

/-- C4 counterexample: a full session in which the child never launched
(`PROCESS` stayed `None`, via the launch-failure path) and the cleanup encrypt
succeeded ends with `sys.exit(1)`, because line 132 evaluates
`PROCESS and ...` to falsy — the claim says this session should exit 0. -/
theorem c4_counterexample :
    Reachable launchFailDoneState ∧
    launchFailDoneState.child = none ∧
    launchFailDoneState.lastOk = some true ∧
    launchFailDoneState.exited = some (ExitKind.normal 1) ∧
    childExitCode none ≠ 0 := by
  refine ⟨?_, rfl, rfl, rfl, by decide⟩
  have h1 := Reachable.step Reachable.init (Step.instH initState rfl rfl)
  have h2 := Reachable.step h1 (Step.startW _ rfl rfl)
  have h3 := Reachable.step h2 (Step.runFail _ rfl rfl)
  have h4 := Reachable.step h3 (Step.cTermStep _ rfl rfl)
  have h5 := Reachable.step h4 (Step.cAcq _ rfl rfl rfl)
  have h6 := Reachable.step h5 (Step.cOk _ rfl rfl rfl)
  have h7 := Reachable.step h6 (Step.cStop _ rfl rfl)
  have h8 := Reachable.step h7 (Step.cJoin _ rfl rfl rfl)
  have h9 := Reachable.step h8 (Step.cRmYes _ rfl rfl rfl)
  exact Reachable.step h9 (Step.cExitStep _ rfl rfl)

/-- C4 (amended): the exit status chosen at line 132 is a function of the
child handle only — 0 when the child exited with code 0 or when a child was
started whose exit code is unrecorded, 1 when the child exited with a nonzero
code or when no child was ever started — and is independent of the cleanup
encrypt's outcome (no transition consults `lastOk` when choosing it). -/
theorem c4_exit_code (e : CleanupEnv) :
    childExitCode none = 1 ∧
    childExitCode (some ChildSt.running) = 0 ∧
    (∀ c : Int, childExitCode (some (ChildSt.exited c)) = if c = 0 then 0 else 1) ∧
    (∀ (s : SessState) (l : Lab) (s' : SessState), Step s l s' → l = Lab.cExitL →
        s'.exited = some (ExitKind.normal (childExitCode s.child))) ∧
    cleanupRun e = cleanupFront e ++ [Ev.exitEv] ∧
    Ev.exitEv ∉ cleanupFront e := by
  refine ⟨rfl, rfl, fun c => rfl, ?_, ?_, ?_⟩
  · intro s l s' hs hl
    cases hs <;> simp_all
  · simp [cleanupRun, cleanupFront]
  · by_cases hc : e.child = some ChildSt.running <;> by_cases hf : e.encFails = true <;>
      by_cases hw : e.watcher = true <;> by_cases hws : e.workspace = true <;>
        simp_all [cleanupFront]

/-- C4 witness: the exit-code clauses evaluated at a concrete state poised at
`sys.exit`, via a concrete `cExitL` transition. -/
theorem c4_exit_code_witness :
    ({ atExitState with mpc := MPc.halted
                        exited := some (ExitKind.normal (childExitCode atExitState.child))
                        trace := atExitState.trace ++ [Ev.exitEv] } : SessState).exited =
      some (ExitKind.normal (childExitCode atExitState.child)) :=
  (c4_exit_code ⟨none, false, false, true⟩).2.2.2.1 atExitState Lab.cExitL _
    (Step.cExitStep atExitState rfl rfl) rfl

/-- C5: the recipient scan of `decrypt_to_tmp` is not safe under its
`len(parts) >= 2` guard: on a status stream containing the line consisting of
exactly the tokens `[GNUPG:]` and `ENC_TO`, the guard passes with
`len(parts) = 2` and the `parts[2]` read is out of bounds, so the scan raises
`IndexError` instead of returning a recipient or raising the no-recipient
error. -/
theorem c5_recipient_scan_oob :
    pySplit "[GNUPG:] ENC_TO" = ["[GNUPG:]", "ENC_TO"] ∧
    (pySplit "[GNUPG:] ENC_TO").length ≥ 2 ∧
    (pySplit "[GNUPG:] ENC_TO")[2]? = none ∧
    scanEncTo ["[GNUPG:] ENC_TO"] = ScanOut.oob ∧
    scanEncTo ["[GNUPG:] ENC_TO ABCDEF0123456789 1 0"] =
      ScanOut.found "ABCDEF0123456789" := by
  refine ⟨by decide, by decide, by decide, by decide, by decide⟩

/-- C6: `decrypt_to_tmp` maps a nonzero backend status to the
decryption-failed error carrying the diagnostic text, and a zero status with a
well-formed recipient line to success — but on a zero status whose only
`ENC_TO` line carries no key id it raises `IndexError`, not the no-recipient
error the spec prescribes for a stream with no recipient-identifying line. -/
theorem c6_decrypt_error_mapping :
    decrypt_to_tmp "doc.gpg" ⟨2, ["gpg: decryption failed"]⟩ =
      Except.error (DecryptFailure.decryptionFailed 2 "gpg: decryption failed") ∧
    decrypt_to_tmp "doc.gpg" ⟨0, []⟩ = Except.error DecryptFailure.recipientUnknown ∧
    decrypt_to_tmp "doc.gpg" ⟨0, ["gpg: foo", "[GNUPG:] ENC_TO ABCDEF0123456789 1 0"]⟩ =
      Except.ok ("doc", "ABCDEF0123456789") ∧
    decrypt_to_tmp "doc.gpg" ⟨0, ["[GNUPG:] ENC_TO"]⟩ =
      Except.error DecryptFailure.indexError ∧
    decrypt_to_tmp "doc.gpg" ⟨0, ["[GNUPG:] ENC_TO"]⟩ ≠
      Except.error DecryptFailure.recipientUnknown := by
  refine ⟨rfl, rfl, rfl, rfl, ?_⟩
  intro h
  rw [show decrypt_to_tmp "doc.gpg" ⟨0, ["[GNUPG:] ENC_TO"]⟩ =
        Except.error DecryptFailure.indexError from rfl] at h
  simp at h

/-- C7 counterexample: a reachable execution in which, after the final encrypt
has started (`finalEncStart` in the trace), the still-subscribed watcher fires
`on_modified` and initiates a fresh auto-save encrypt (`autoStart` after
`finalEncStart`): the final encrypt is not the last encrypt the session
initiates. -/
theorem c7_counterexample :
    Reachable lateAutoSaveState ∧
    lateAutoSaveState.trace = [Ev.childExit, Ev.finalEncStart, Ev.autoStart] := by
  refine ⟨?_, rfl⟩
  have h1 := Reachable.step Reachable.init (Step.instH initState rfl rfl)
  have h2 := Reachable.step h1 (Step.startW _ rfl rfl)
  have h3 := Reachable.step h2 (Step.runOk _ rfl rfl)
  have h4 := Reachable.step h3 (Step.chExit _ 0 rfl rfl rfl)
  have h5 := Reachable.step h4 (Step.cTermStep _ rfl rfl)
  exact Reachable.step h5 (Step.wFire _ rfl rfl rfl)

/-- C7 (amended): in every Terminating run the final encrypt is attempted,
then the watcher is stopped and joined, and only after the join does workspace
destruction occur; workspace destruction happens at most once per session.
(The final encrypt is, however, not necessarily the last encrypt the session
initiates — see the counterexample.) -/
theorem c7_terminating_order :
    (∀ e : CleanupEnv, e.watcher = true → e.workspace = true →
        cleanupRun e = preEncPart e ++ Ev.finalEncStart ::
          (encOutPart e ++ Ev.stopW :: Ev.joinW :: [Ev.rmEv, Ev.exitEv]) ∧
        Ev.rmEv ∉ preEncPart e ∧ Ev.rmEv ∉ encOutPart e ∧
        Ev.stopW ∉ preEncPart e ∧ Ev.stopW ∉ encOutPart e ∧
        countEv (cleanupRun e) Ev.rmEv = 1) ∧
    (∀ s : SessState, Reachable s → countEv s.trace Ev.rmEv ≤ 1) := by
  constructor
  · intro e hw hws
    refine ⟨?_, ?_, ?_, ?_, ?_, ?_⟩
    · simp [cleanupRun, preEncPart, encOutPart, hw, hws]
    · by_cases hc : e.child = some ChildSt.running <;> simp [preEncPart, hc]
    · by_cases hf : e.encFails = true <;> simp_all [encOutPart]
    · by_cases hc : e.child = some ChildSt.running <;> simp [preEncPart, hc]
    · by_cases hf : e.encFails = true <;> simp_all [encOutPart]
    · by_cases hc : e.child = some ChildSt.running <;>
        by_cases hf : e.encFails = true <;>
          simp_all [cleanupRun, countEv_append, countEv, hw, hws]
  · intro s h
    exact (inv_rm_count h).2

/-- C7 witness: the ordering clause evaluated at a concrete environment, and
the at-most-once clause at the initial state. -/
theorem c7_terminating_order_witness :
    countEv (cleanupRun ⟨some ChildSt.running, false, true, true⟩) Ev.rmEv = 1 ∧
    countEv initState.trace Ev.rmEv ≤ 1 :=
  ⟨(c7_terminating_order.1 ⟨some ChildSt.running, false, true, true⟩ rfl rfl).2.2.2.2.2,
   c7_terminating_order.2 initState Reachable.init⟩

/-- C8 counterexample: a reachable execution in which the main control path's
cleanup completed its final encrypt and a termination signal then re-entered
`cleanup_and_exit`, which started the final encrypt a second time — the entry
point has no guard, so signal handling and the main path both perform
cleanup. -/
theorem c8_counterexample :
    Reachable doubleCleanupState ∧
    countEv doubleCleanupState.trace Ev.finalEncStart = 2 := by
  refine ⟨?_, by decide⟩
  have h1 := Reachable.step Reachable.init (Step.instH initState rfl rfl)
  have h2 := Reachable.step h1 (Step.startW _ rfl rfl)
  have h3 := Reachable.step h2 (Step.runOk _ rfl rfl)
  have h4 := Reachable.step h3 (Step.chExit _ 0 rfl rfl rfl)
  have h5 := Reachable.step h4 (Step.cTermStep _ rfl rfl)
  have h6 := Reachable.step h5 (Step.cAcq _ rfl rfl rfl)
  have h7 := Reachable.step h6 (Step.cOk _ rfl rfl rfl)
  have h8 := Reachable.step h7 (Step.sigH _ rfl rfl)
  exact Reachable.step h8 (Step.cTermStep _ rfl rfl)

/-- C8 (amended): `cleanup_and_exit` is not idempotence-guarded and a signal
during main-path cleanup re-enters it, so cleanup steps can run twice; still,
at most one cleanup sequence runs to completion: workspace removal executes at
most once (the `isdir` check skips an already-removed directory) and `sys.exit`
is recorded at most once. -/
theorem c8_single_effective_cleanup :
    ∀ s : SessState, Reachable s →
      countEv s.trace Ev.rmEv ≤ 1 ∧ countEv s.trace Ev.exitEv ≤ 1 :=
  fun _ h => ⟨(inv_rm_count h).2, (inv_exit_count h).2⟩

/-- C8 witness: the amended statement evaluated at the initial state. -/
theorem c8_single_effective_cleanup_witness :
    countEv initState.trace Ev.rmEv ≤ 1 ∧ countEv initState.trace Ev.exitEv ≤ 1 :=
  c8_single_effective_cleanup initState Reachable.init

/-- C9: a failing watcher-triggered auto-save encrypt is caught inside
`on_modified` (which logs it and returns normally, never propagating), and no
watcher-thread transition terminates the child, changes the main control
path's state, or ends the process: the session continues in the Active
state. -/
theorem c9_autosave_failure_nonfatal :
    (∀ (plaintext srcPath : String) (encResult : Option String),
        (on_modified plaintext srcPath encResult).raised = false) ∧
    (∀ (plaintext msg : String),
        (on_modified plaintext plaintext (some msg)).attempted = true ∧
        (on_modified plaintext plaintext (some msg)).loggedError = true) ∧
    (∀ (plaintext : String),
        (on_modified plaintext plaintext none).loggedError = false) ∧
    (∀ (s : SessState) (l : Lab) (s' : SessState), Step s l s' → watcherLab l →
        s'.mpc = s.mpc ∧ s'.child = s.child ∧ s'.exited = s.exited ∧
        countEv s'.trace Ev.termReq = countEv s.trace Ev.termReq) := by
  refine ⟨?_, ?_, ?_, ?_⟩
  · intro p sp r
    rcases r with _ | m <;> simp only [on_modified] <;> split <;> rfl
  · intro p m
    simp [on_modified]
  · intro p
    simp [on_modified]
  · intro s l s' hs hl
    cases hs <;> simp_all [watcherLab, countEv_append, countEv]

/-- C9 witness: the preservation clause evaluated at a concrete watcher
transition, and the handler clauses at concrete inputs. -/
theorem c9_autosave_failure_nonfatal_witness :
    (on_modified "/dev/shm/gpg-edit0/doc" "/dev/shm/gpg-edit0/doc"
        (some "GPG encryption failed")).raised = false ∧
    ({ watchReadyState with wpc := WPc.wWait
                            trace := watchReadyState.trace ++ [Ev.autoStart] } : SessState).mpc =
      watchReadyState.mpc := by
  constructor
  · exact c9_autosave_failure_nonfatal.1 "/dev/shm/gpg-edit0/doc"
      "/dev/shm/gpg-edit0/doc" (some "GPG encryption failed")
  · exact (c9_autosave_failure_nonfatal.2.2.2 watchReadyState Lab.wFireL _
      (Step.wFire watchReadyState rfl rfl rfl) (Or.inl rfl)).1

/-- C10: the filename derivation at line 44 uses `rstrip(".gpg")`, which
strips every trailing character drawn from the set containing the full stop,
the letter g and the letter p — not a single `.gpg` suffix: `app.gpg` becomes
`a`, a basename made up entirely of those characters becomes empty, and in
general the result is the input with its maximal such trailing run removed. -/
theorem c10_rstrip_set_semantics :
    tmpBaseName "app.gpg" = "a" ∧
    tmpBaseName ".gpg" = "" ∧
    tmpBaseName "gpg.gpg" = "" ∧
    tmpBaseName "notes.gpg" = "notes" ∧
    ∀ s : String, tmpBaseName s =
      String.mk ((s.data.reverse.dropWhile fun c => c == '.' || c == 'g' || c == 'p').reverse) := by
  refine ⟨by decide, by decide, by decide, by decide, ?_⟩
  intro s
  have hdata : rstripCutset = ['.', 'g', 'p', 'g'] := by decide
  have hfun : (fun c => rstripCutset.contains c) =
      (fun c : Char => c == '.' || c == 'g' || c == 'p') := by
    funext c
    by_cases h1 : c = '.' <;> by_cases h2 : c = 'g' <;> by_cases h3 : c = 'p' <;>
      simp [hdata, h1, h2, h3]
  simp only [tmpBaseName, pyRstrip, hfun]

end CryptFile
